import Mathlib

/-!
Verification development for the two Temporal sample workflows in this
repository: the request/response queue workflow (`reqrespupdate/workflow.py`)
and the greeting/language workflow
(`message_passing/introduction/workflows.py`).  The Python workflow classes
are shallowly embedded as explicit state machines; handlers become functions
on the state, the drain loop becomes a fuelled recursion, and the
suspension-level behaviour (activity awaits, the asyncio lock, continue-as-new)
becomes small-step transition relations over instrumented configurations.
-/

/-! ### Association-list model of a Python `dict`

`dict` assignment overwrites the value of an existing key in place and
appends a fresh key at the end; `dict.get(k, default)` looks up with a
default.  Keys here are compared with decidable equality. -/

def mapInsert {α : Type} [DecidableEq α] : List (α × String) → α → String → List (α × String)
  | [], k, v => [(k, v)]
  | (k', v') :: rest, k, v =>
    if k' = k then (k, v) :: rest else (k', v') :: mapInsert rest k v

def mapLookup {α : Type} [DecidableEq α] : List (α × String) → α → Option String
  | [], _ => none
  | (k', v') :: rest, k => if k' = k then some v' else mapLookup rest k

/-! ### Queue workflow: data model (`reqrespupdate/workflow.py`) -/

/-- `UppercaseParams`: parameters for starting or continuing the workflow. -/
structure UppercaseParams where
  initial_message : String
  previous_responses : List (String × String) := []
  deriving Repr, DecidableEq

/-- `Request`: `{id, input}` message for the `request` signal. -/
structure Request where
  id : String
  input : String
  deriving Repr, DecidableEq

/-- `uppercase_activity`: the activity body `text.upper()`, mapping every
character to its uppercase form (stated over the character list so that the
kernel can evaluate it on concrete strings). -/
def uppercase_activity (text : String) : String :=
  ⟨text.data.map Char.toUpper⟩

/-- The mutable state of `UppercaseWorkflowUpdate`. -/
structure QueueState where
  requests_buffer : List Request
  responses_map : List (String × String)
  request_count : Nat
  pending_updates : Nat
  threshold_for_continue : Nat
  initial_message : String
  deriving Repr, DecidableEq

/-- `UppercaseWorkflowUpdate.__init__`: buffer empty, responses copied from
the parameters, counters zero, threshold 5. -/
def initState (params : UppercaseParams) : QueueState :=
  { requests_buffer := []
    responses_map := params.previous_responses
    request_count := 0
    pending_updates := 0
    threshold_for_continue := 5
    initial_message := params.initial_message }

/-- Signal handler `request`: enqueue an incoming request. -/
def signalRequest (s : QueueState) (req : Request) : QueueState :=
  { s with requests_buffer := s.requests_buffer ++ [req] }

/-- Update handler `set_response`: store the result, return `True`. -/
def set_response (s : QueueState) (req_id result : String) : QueueState × Bool :=
  ({ s with responses_map := mapInsert s.responses_map req_id result }, true)

/-- Query handler `get_response`: stored response or `""` when absent. -/
def get_response (s : QueueState) (req_id : String) : String :=
  (mapLookup s.responses_map req_id).getD ""

/-- One iteration of the inner `while self.requests_buffer` loop: pop the
oldest request, bump both counters, run the activity (`ok` says whether the
activity invocation succeeded; on success the result is committed through
`set_response`, on failure the error is only logged), then in the `finally`
block decrement `pending_updates`. -/
def processOne (s : QueueState) (ok : Bool) : QueueState :=
  match s.requests_buffer with
  | [] => s
  | req :: rest =>
    let s1 := { s with
                  requests_buffer := rest
                  request_count := s.request_count + 1
                  pending_updates := s.pending_updates + 1 }
    let s2 := if ok then (set_response s1 req.id (uppercase_activity req.input)).1 else s1
    { s2 with pending_updates := s2.pending_updates - 1 }

/-- Fuelled form of the inner drain loop; the fuel is instantiated with the
buffer length, which `processOne` decreases by one each iteration. -/
def drainGo : Nat → QueueState → List Bool → QueueState
  | 0, s, _ => s
  | Nat.succ n, s, oks =>
    match s.requests_buffer with
    | [] => s
    | _ :: _ => drainGo n (processOne s (oks.headD true)) oks.tail

/-- Drain the whole buffer, one oracle `Bool` (activity success) per request. -/
def drainAll (s : QueueState) (oks : List Bool) : QueueState :=
  drainGo s.requests_buffer.length s oks

/-- The compaction decision of the main loop:
`request_count >= threshold_for_continue and pending_updates == 0`. -/
def shouldCompact (s : QueueState) : Bool :=
  s.threshold_for_continue ≤ s.request_count && s.pending_updates == 0

/-- State of the fresh generation started by `continue_as_new`: the new
`UppercaseParams` carry an empty initial message and a copy of the
current responses map. -/
def compactState (s : QueueState) : QueueState :=
  initState { initial_message := "", previous_responses := s.responses_map }

/-- One cycle of the main loop body after the wait condition: drain every
buffered request, then compact if the decision predicate holds.  The `Bool`
component records whether this cycle triggered `continue_as_new`. -/
def drainCycle (s : QueueState) (oks : List Bool) : QueueState × Bool :=
  let s' := drainAll s oks
  if shouldCompact s' then (compactState s', true) else (s', false)

/-! ### Queue workflow: small-step instrumented semantics

The main loop suspends at two points: the `wait_condition` at the top of the
outer loop and the `execute_activity` await inside the inner loop.  The
program counter `QPhase` distinguishes them; `awaitingEffect req` is the
moment between scheduling the uppercase activity for the dequeued `req` and
receiving its outcome.  The configuration carries two ghost fields that the
Python state does not have: `drainedOk`, the list of requests whose activity
succeeded and whose result was committed via `set_response`, and
`generation`, the number of `continue_as_new` jumps performed so far. -/

inductive QPhase where
  | looping
  | awaitingEffect (req : Request)
  deriving Repr, DecidableEq

structure QConfig where
  qs : QueueState
  qphase : QPhase
  drainedOk : List Request
  generation : Nat
  deriving Repr, DecidableEq

/-- Small-step transitions of the queue workflow.  The parameter `ext`
enables the constructor `extSetResponse`, modelling a `set_response` update
delivered by an external client rather than by the drain loop itself (the
handler is public: any client holding the workflow handle may execute it). -/
inductive QStep (ext : Bool) : QConfig → QConfig → Prop
  | signal (c : QConfig) (req : Request) :
      QStep ext c { c with qs := signalRequest c.qs req }
  | extSetResponse (c : QConfig) (req_id result : String) (he : ext = true) :
      QStep ext c { c with qs := (set_response c.qs req_id result).1 }
  | pop (c : QConfig) (req : Request) (rest : List Request)
      (hp : c.qphase = QPhase.looping)
      (hb : c.qs.requests_buffer = req :: rest) :
      QStep ext c { c with
        qs := { c.qs with
                  requests_buffer := rest
                  request_count := c.qs.request_count + 1
                  pending_updates := c.qs.pending_updates + 1 }
        qphase := QPhase.awaitingEffect req }
  | effectOk (c : QConfig) (req : Request)
      (hp : c.qphase = QPhase.awaitingEffect req) :
      QStep ext c { c with
        qs := { (set_response c.qs req.id (uppercase_activity req.input)).1 with
                  pending_updates := c.qs.pending_updates - 1 }
        qphase := QPhase.looping
        drainedOk := c.drainedOk ++ [req] }
  | effectFail (c : QConfig) (req : Request)
      (hp : c.qphase = QPhase.awaitingEffect req) :
      QStep ext c { c with
        qs := { c.qs with pending_updates := c.qs.pending_updates - 1 }
        qphase := QPhase.looping }
  | compactYes (c : QConfig)
      (hp : c.qphase = QPhase.looping)
      (hb : c.qs.requests_buffer = [])
      (hc : shouldCompact c.qs = true) :
      QStep ext c { c with
        qs := compactState c.qs
        generation := c.generation + 1 }

/-- The configuration of a freshly started workflow: `__init__` plus the
ghost instrumentation at its neutral values. -/
def qinit (params : UppercaseParams) : QConfig :=
  { qs := initState params
    qphase := QPhase.looping
    drainedOk := []
    generation := 0 }

/-- Configurations reachable from a fresh start with initial message `msg`
and no carried-over responses. -/
def QReach (ext : Bool) (msg : String) (c : QConfig) : Prop :=
  Relation.ReflTransGen (QStep ext)
    (qinit { initial_message := msg, previous_responses := [] }) c

/-- The response-table invariant claimed by the spec: every entry of the
table is the committed uppercase result of some fully processed request
(one that went through a successful activity invocation in the drain loop,
recorded in the ghost field `drainedOk`). -/
def QTableInv (c : QConfig) : Prop :=
  ∀ k v, mapLookup c.qs.responses_map k = some v →
    ∃ req, req ∈ c.drainedOk ∧ req.id = k ∧ uppercase_activity req.input = v

/-! ### Greeting workflow: data model
(`message_passing/introduction/workflows.py`)

The definitions live in the namespace `Introduction` (after the Python
package `message_passing.introduction`) because Mathlib already claims the
root name `Language`. -/

namespace Introduction

/-- Modelled from the spec: the variant domain.  `Language` is imported by
the workflow from `message_passing.introduction`, whose source is not under
`src/`; the spec fixes only that it is a sortable enumeration of variants of
which `CHINESE` and `ENGLISH` are pre-mapped and further variants (here
represented by `french`) exist.  -/
inductive Language where
  | chinese
  | english
  | french
  deriving Repr, DecidableEq

/-- The mutable state of `GreetingWorkflow`.  `lockHeld` is the state of the
`asyncio.Lock` stored in `self.lock`. -/
structure GreetingState where
  approved_for_release : Bool
  approver_name : Option String
  greetings : List (Language × String)
  language : Language
  lockHeld : Bool
  deriving Repr, DecidableEq

/-- `GreetingWorkflow.__init__`. -/
def greetingInit : GreetingState :=
  { approved_for_release := false
    approver_name := none
    greetings := [(Language.chinese, "你好，世界"), (Language.english, "Hello, world")]
    language := Language.english
    lockHeld := false }

/-- Signal handler `approve`. -/
def approve (s : GreetingState) (name : String) : GreetingState :=
  { s with approved_for_release := true, approver_name := some name }

/-- Query handler `get_language`. -/
def get_language (s : GreetingState) : Language :=
  s.language

/-- Update handler `set_language`: swap the current language, return the
previous one. -/
def set_language (s : GreetingState) (language : Language) : GreetingState × Language :=
  ({ s with language := language }, s.language)

/-- The update validator `validate_language` as the pure predicate it tests:
the call is rejected exactly when `language not in self.greetings`. -/
def validate_language (s : GreetingState) (language : Language) : Bool :=
  (mapLookup s.greetings language).isSome

/-- The runtime composition of validator and handler for the `set_language`
update: a rejected update never runs the handler, so the state is returned
untouched together with the rejection; an accepted one runs `set_language`. -/
def handle_set_language (s : GreetingState) (language : Language) :
    GreetingState × Except String Language :=
  if validate_language s language then
    ((set_language s language).1, Except.ok (set_language s language).2)
  else
    (s, Except.error "language is not supported")

/-! ### Greeting workflow: small-step model of `set_language_using_activity`

The async update handler suspends twice: acquiring `self.lock` and awaiting
the `call_greeting_service` activity.  `HPhase` is the handler's program
counter; atomic segments between suspension points are single steps.
`call_greeting_service` itself is repository code outside `src/`
(modelled from the spec: the gateway returns the translated greeting or an
empty/absent result `none` for an unsupported language), so its outcome
enters the step function as the oracle argument `gw`. -/

inductive HPhase where
  /-- About to test `language not in self.greetings`. -/
  | entry
  /-- Inside `async with self.lock` (lock held), activity scheduled. -/
  | beforeGateway
  /-- Activity completed with result `res`, lock still held. -/
  | afterGateway (res : Option String)
  /-- `self.greetings[language] = greeting` done, lock still held. -/
  | inserted
  /-- Past the `async with` block (lock released) or on the fast path;
  about to swap `self.language`. -/
  | beforeSwap
  /-- Handler returned `previous_language`. -/
  | returned (prev : Language)
  /-- Handler raised `ApplicationError` (the update fails; acceptance was
  already recorded by the runtime). -/
  | errored (msg : String)
  deriving Repr, DecidableEq

structure HConfig where
  gs : GreetingState
  phase : HPhase
  deriving Repr, DecidableEq

/-- One step of a single `set_language_using_activity` invocation for
language `language`; `gw` is the gateway outcome, consumed at the
activity-completion step and ignored elsewhere.  Terminal phases step to
themselves. -/
def hstep (language : Language) (gw : Option String) (c : HConfig) : HConfig :=
  match c.phase with
  | HPhase.entry =>
    if (mapLookup c.gs.greetings language).isSome then
      { c with phase := HPhase.beforeSwap }
    else
      { gs := { c.gs with lockHeld := true }, phase := HPhase.beforeGateway }
  | HPhase.beforeGateway => { c with phase := HPhase.afterGateway gw }
  | HPhase.afterGateway res =>
    match res with
    | none =>
      { gs := { c.gs with lockHeld := false },
        phase := HPhase.errored "Greeting service does not support this language" }
    | some greeting =>
      { gs := { c.gs with greetings := mapInsert c.gs.greetings language greeting },
        phase := HPhase.inserted }
  | HPhase.inserted =>
    { gs := { c.gs with lockHeld := false }, phase := HPhase.beforeSwap }
  | HPhase.beforeSwap =>
    { gs := { c.gs with language := language },
      phase := HPhase.returned c.gs.language }
  | HPhase.returned _ => c
  | HPhase.errored _ => c

/-- Run a single `set_language_using_activity` invocation for `n` steps from
state `s`. -/
def hrun (s : GreetingState) (language : Language) (gw : Option String) (n : Nat) : HConfig :=
  Nat.rec { gs := s, phase := HPhase.entry } (fun _ ih => hstep language gw ih) n

/-! ### Greeting workflow: interleaved configurations and the `run` method

`GreetingWorkflow.run` waits on
`self.approved_for_release and workflow.all_handlers_finished()` and then
returns `self.greetings[self.language]`.  A `WConfig` is a point-in-time
snapshot of the whole workflow: the shared state, the program counters of
all `set_language_using_activity` invocations accepted so far, and the
result of `run` once it has been produced. -/

/-- A handler phase counts as finished once it has returned or raised. -/
def phaseFinished : HPhase → Bool
  | HPhase.returned _ => true
  | HPhase.errored _ => true
  | _ => false

/-- `workflow.all_handlers_finished()` over the recorded handler phases. -/
def all_handlers_finished (hs : List (Language × HPhase)) : Bool :=
  hs.all (fun lp => phaseFinished lp.2)

structure WConfig where
  gs : GreetingState
  inflight : List (Language × HPhase)
  result : Option String
  deriving Repr, DecidableEq

/-- Whether the scheduler may advance a handler at the given phase: a
handler entering its `async with self.lock` block must wait until the lock
is free (the fast path for an already-supported language never touches the
lock), and a finished handler has nothing left to run. -/
def hCanStep (gs : GreetingState) (language : Language) (ph : HPhase) : Prop :=
  match ph with
  | HPhase.entry => (mapLookup gs.greetings language).isSome ∨ gs.lockHeld = false
  | HPhase.returned _ => False
  | HPhase.errored _ => False
  | _ => True

/-- Advance in-flight handler `i` by one `hstep`, writing its effect on the
shared state back into the configuration. -/
def applyHandler (c : WConfig) (i : Nat) (gw : Option String) : WConfig :=
  match c.inflight.get? i with
  | none => c
  | some (language, ph) =>
    let h' := hstep language gw { gs := c.gs, phase := ph }
    { c with gs := h'.gs, inflight := c.inflight.set i (language, h'.phase) }

/-- Cooperative small-step semantics of the whole greeting workflow. -/
inductive WStep : WConfig → WConfig → Prop
  | approveSig (c : WConfig) (name : String) :
      WStep c { c with gs := approve c.gs name }
  | setLangUpd (c : WConfig) (language : Language)
      (hv : validate_language c.gs language = true) :
      WStep c { c with gs := (set_language c.gs language).1 }
  | spawn (c : WConfig) (language : Language) :
      WStep c { c with inflight := c.inflight ++ [(language, HPhase.entry)] }
  | handlerStep (c : WConfig) (i : Nat) (gw : Option String)
      (language : Language) (ph : HPhase)
      (hi : c.inflight.get? i = some (language, ph))
      (hcan : hCanStep c.gs language ph) :
      WStep c (applyHandler c i gw)
  | finish (c : WConfig) (r : String)
      (h1 : c.gs.approved_for_release = true)
      (h2 : all_handlers_finished c.inflight = true)
      (h3 : c.result = none)
      (hv : mapLookup c.gs.greetings c.gs.language = some r) :
      WStep c { c with result := some r }

end Introduction

/-! ### Requester polling model (`reqrespupdate/requester.py`)

`Requester.request_uppercase` signals a request and then polls the
`get_response` query up to 20 times, returning the first truthy (non-empty)
response and `""` once the attempt budget is exhausted.  The sequence of
query results observed at each attempt enters as the function `queries`. -/

def pollGo (queries : Nat → String) : Nat → Nat → String
  | _, 0 => ""
  | i, Nat.succ fuel =>
    if (queries i).isEmpty then pollGo queries (i + 1) fuel else queries i

/-- The polling phase of `Requester.request_uppercase`. -/
def request_uppercase_poll (queries : Nat → String) : String :=
  pollGo queries 0 20

/-! ### Concrete configurations used to instantiate the theorems -/

/-- The quiescent queue configuration after `n` requests have been counted:
empty buffer, empty table, no pending update.  `qRound n` steps to
`qRound (n + 1)` by a signal, a pop and a failed effect. -/
def qRound (n : Nat) : QConfig :=
  { qs := { requests_buffer := []
            responses_map := []
            request_count := n
            pending_updates := 0
            threshold_for_continue := 5
            initial_message := "" }
    qphase := QPhase.looping
    drainedOk := []
    generation := 0 }

/-- A queue configuration with five processed requests, an empty buffer and
no pending update: exactly the situation in which the main loop triggers
`continue_as_new`. -/
def cCompactReady : QConfig :=
  { qs := { requests_buffer := []
            responses_map := []
            request_count := 5
            pending_updates := 0
            threshold_for_continue := 5
            initial_message := "" }
    qphase := QPhase.looping
    drainedOk := []
    generation := 0 }

/-- The queue configuration after the request `{id: "1", input: "foo0"}` has
been signalled, dequeued and successfully processed by the drain loop. -/
def cProcessedOne : QConfig :=
  { qs := { requests_buffer := []
            responses_map := [("1", "FOO0")]
            request_count := 1
            pending_updates := 0
            threshold_for_continue := 5
            initial_message := "" }
    qphase := QPhase.looping
    drainedOk := [{ id := "1", input := "foo0" }]
    generation := 0 }

/-- The queue configuration right after an external client has executed the
public `set_response` update with arguments `("x", "y")` on a fresh
workflow: the table holds an entry although no request was ever processed. -/
def cExtWritten : QConfig :=
  { qs := { requests_buffer := []
            responses_map := [("x", "y")]
            request_count := 0
            pending_updates := 0
            threshold_for_continue := 5
            initial_message := "" }
    qphase := QPhase.looping
    drainedOk := []
    generation := 0 }

/-- A queue state with a single buffered request, used to instantiate the
failure-path theorem. -/
def qFailW : QueueState :=
  { requests_buffer := [{ id := "1", input := "foo0" }]
    responses_map := []
    request_count := 0
    pending_updates := 0
    threshold_for_continue := 5
    initial_message := "" }

/-- A queue state whose stored response for id "1" is the empty string. -/
def qEmptyW : QueueState :=
  { requests_buffer := []
    responses_map := [("1", "")]
    request_count := 1
    pending_updates := 0
    threshold_for_continue := 5
    initial_message := "" }

/-! ### Helper lemmas: association lists -/

theorem mapLookup_insert_self {α : Type} [DecidableEq α]
    (m : List (α × String)) (k : α) (v : String) :
    mapLookup (mapInsert m k v) k = some v := by
  induction m with
  | nil => simp [mapInsert, mapLookup]
  | cons hd tl ih =>
    obtain ⟨k', v'⟩ := hd
    by_cases h : k' = k
    · simp [mapInsert, mapLookup, h]
    · simp [mapInsert, mapLookup, h, ih]

theorem mapLookup_insert_ne {α : Type} [DecidableEq α]
    (m : List (α × String)) (k k' : α) (v : String) (h : k' ≠ k) :
    mapLookup (mapInsert m k v) k' = mapLookup m k' := by
  induction m with
  | nil => simp [mapInsert, mapLookup, h, Ne.symm h]
  | cons hd tl ih =>
    obtain ⟨k0, v0⟩ := hd
    by_cases h0 : k0 = k
    · subst h0
      simp [mapInsert, mapLookup, Ne.symm h]
    · by_cases h1 : k0 = k'
      · simp [mapInsert, mapLookup, h0, h1, h]
      · simp [mapInsert, mapLookup, h0, h1, ih]

/-! ### Helper lemmas: the drain loop -/

theorem processOne_buffer (s : QueueState) (req : Request) (rest : List Request)
    (hb : s.requests_buffer = req :: rest) (ok : Bool) :
    (processOne s ok).requests_buffer = rest := by
  cases ok <;> simp [processOne, hb, set_response]

theorem processOne_true (s : QueueState) (req : Request) (rest : List Request)
    (hb : s.requests_buffer = req :: rest) :
    processOne s true =
      { s with
          requests_buffer := rest
          responses_map := mapInsert s.responses_map req.id (uppercase_activity req.input)
          request_count := s.request_count + 1 } := by
  simp [processOne, hb, set_response]

theorem processOne_false (s : QueueState) (req : Request) (rest : List Request)
    (hb : s.requests_buffer = req :: rest) :
    processOne s false =
      { s with
          requests_buffer := rest
          request_count := s.request_count + 1 } := by
  simp [processOne, hb]

theorem drainAll_cons (s : QueueState) (req : Request) (rest : List Request)
    (hb : s.requests_buffer = req :: rest) (oks : List Bool) :
    drainAll s oks = drainAll (processOne s (oks.headD true)) oks.tail := by
  unfold drainAll
  rw [hb]
  simp only [List.length_cons, drainGo]
  rw [hb]
  rw [processOne_buffer s req rest hb]

theorem headD_eq_getD_zero (oks : List Bool) : oks.headD true = oks.getD 0 true := by
  cases oks <;> rfl

theorem tail_getD (oks : List Bool) (j : Nat) :
    oks.tail.getD j true = oks.getD (j + 1) true := by
  cases oks <;> rfl

/-- Draining touches no table entry whose key is not the id of a buffered
request. -/
theorem drainGo_untouched (k : String) :
    ∀ (n : Nat) (s : QueueState) (oks : List Bool),
      (∀ r ∈ s.requests_buffer, r.id ≠ k) →
      mapLookup (drainGo n s oks).responses_map k = mapLookup s.responses_map k := by
  intro n
  induction n with
  | zero => intro s oks _; rfl
  | succ n ih =>
    intro s oks hk
    cases hb : s.requests_buffer with
    | nil => simp [drainGo, hb]
    | cons req rest =>
      simp only [drainGo, hb]
      have hne : req.id ≠ k := hk req (by rw [hb]; exact List.mem_cons_self _ _)
      have hrest : ∀ r ∈ rest, r.id ≠ k := fun r hr =>
        hk r (by rw [hb]; exact List.mem_cons_of_mem _ hr)
      cases hok : oks.headD true with
      | true =>
        rw [ih (processOne s true) oks.tail
          (by rw [processOne_buffer s req rest hb]; exact hrest)]
        rw [processOne_true s req rest hb]
        exact mapLookup_insert_ne _ _ _ _ (Ne.symm hne)
      | false =>
        rw [ih (processOne s false) oks.tail
          (by rw [processOne_buffer s req rest hb]; exact hrest)]
        rw [processOne_false s req rest hb]

/-- If the `i`-th buffered request has a successful activity invocation and
no later buffered request reuses its id, the drain loop commits its
uppercase result. -/
theorem drainGo_commits :
    ∀ (n : Nat) (s : QueueState) (oks : List Bool) (i : Nat) (req : Request),
      n = s.requests_buffer.length →
      s.requests_buffer.get? i = some req →
      oks.getD i true = true →
      (∀ j req', i < j → s.requests_buffer.get? j = some req' → req'.id ≠ req.id) →
      mapLookup (drainGo n s oks).responses_map req.id =
        some (uppercase_activity req.input) := by
  intro n
  induction n with
  | zero =>
    intro s oks i req hn hi _ _
    rw [List.get?_eq_some] at hi
    obtain ⟨hlt, _⟩ := hi
    omega
  | succ n ih =>
    intro s oks i req hn hi hok hlast
    cases hb : s.requests_buffer with
    | nil => rw [hb] at hn; simp at hn
    | cons r0 rest =>
      simp only [drainGo, hb]
      have hn' : n = rest.length := by rw [hb] at hn; simpa using hn
      cases i with
      | zero =>
        rw [hb] at hi
        simp only [List.get?] at hi
        injection hi with hi
        subst hi
        rw [headD_eq_getD_zero, hok]
        have hrest : ∀ r ∈ rest, r.id ≠ r0.id := by
          intro r hr
          rw [List.mem_iff_get?] at hr
          obtain ⟨j, hj⟩ := hr
          exact hlast (j + 1) r (Nat.succ_pos j) (by rw [hb]; simpa using hj)
        rw [drainGo_untouched r0.id n (processOne s true) oks.tail
          (by rw [processOne_buffer s r0 rest hb]; exact hrest)]
        rw [processOne_true s r0 rest hb]
        exact mapLookup_insert_self _ _ _
      | succ i =>
        have hbuf : oks.headD true = true ∨ oks.headD true = false := by
          cases oks.headD true <;> simp
        have hget : (processOne s (oks.headD true)).requests_buffer.get? i = some req := by
          rw [processOne_buffer s r0 rest hb]
          rw [hb] at hi
          simpa using hi
        have hok' : oks.tail.getD i true = true := by rw [tail_getD]; exact hok
        have hlast' : ∀ j req', i < j →
            (processOne s (oks.headD true)).requests_buffer.get? j = some req' →
            req'.id ≠ req.id := by
          intro j req' hij hj
          rw [processOne_buffer s r0 rest hb] at hj
          exact hlast (j + 1) req' (by omega) (by rw [hb]; simpa using hj)
        have hn'' : n = (processOne s (oks.headD true)).requests_buffer.length := by
          rw [processOne_buffer s r0 rest hb]; exact hn'
        exact ih (processOne s (oks.headD true)) oks.tail i req hn'' hget hok' hlast'

/-! ### Helper lemmas: queue small-step semantics -/

theorem qstep_threshold {ext : Bool} {c c' : QConfig} (h : QStep ext c c')
    (ht : c.qs.threshold_for_continue = 5) :
    c'.qs.threshold_for_continue = 5 := by
  cases h <;>
    simp_all [signalRequest, set_response, compactState, initState]

theorem qreach_threshold {ext : Bool} {msg : String} {c : QConfig}
    (h : QReach ext msg c) : c.qs.threshold_for_continue = 5 := by
  induction h with
  | refl => rfl
  | tail _ hstep ih => exact qstep_threshold hstep ih

theorem qstep_tableInv {c c' : QConfig} (h : QStep false c c')
    (hinv : QTableInv c) : QTableInv c' := by
  cases h with
  | signal req =>
    intro k v hk
    exact hinv k v hk
  | extSetResponse req_id result he => exact absurd he (by simp)
  | pop req rest hp hb =>
    intro k v hk
    exact hinv k v hk
  | effectOk req hp =>
    intro k v hk
    simp only [set_response] at hk
    by_cases hid : k = req.id
    · subst hid
      rw [mapLookup_insert_self] at hk
      exact ⟨req, by simp, rfl, Option.some.inj hk⟩
    · rw [mapLookup_insert_ne _ _ _ _ hid] at hk
      obtain ⟨r, hr, hrid, hrv⟩ := hinv k v hk
      exact ⟨r, by simp [hr], hrid, hrv⟩
  | effectFail req hp =>
    intro k v hk
    exact hinv k v hk
  | compactYes hp hb hc =>
    intro k v hk
    exact hinv k v hk

/-- One `signal`/`pop`/`effectFail` round between quiescent configurations. -/
theorem qRound_step (n : Nat) :
    Relation.ReflTransGen (QStep true) (qRound n) (qRound (n + 1)) := by
  have h1 : QStep true (qRound n)
      ⟨⟨[⟨"1", "x"⟩], [], n, 0, 5, ""⟩, QPhase.looping, [], 0⟩ :=
    QStep.signal (qRound n) ⟨"1", "x"⟩
  have h2 : QStep true ⟨⟨[⟨"1", "x"⟩], [], n, 0, 5, ""⟩, QPhase.looping, [], 0⟩
      ⟨⟨[], [], n + 1, 1, 5, ""⟩, QPhase.awaitingEffect ⟨"1", "x"⟩, [], 0⟩ :=
    QStep.pop _ ⟨"1", "x"⟩ [] rfl rfl
  have h3 : QStep true ⟨⟨[], [], n + 1, 1, 5, ""⟩, QPhase.awaitingEffect ⟨"1", "x"⟩, [], 0⟩
      (qRound (n + 1)) :=
    QStep.effectFail _ ⟨"1", "x"⟩ rfl
  exact Relation.ReflTransGen.tail
    (Relation.ReflTransGen.tail (Relation.ReflTransGen.single h1) h2) h3

theorem cCompactReady_reach : QReach true "" cCompactReady :=
  ((((qRound_step 0).trans (qRound_step 1)).trans (qRound_step 2)).trans
    (qRound_step 3)).trans (qRound_step 4)

theorem cProcessedOne_reach : QReach false "" cProcessedOne := by
  have h1 : QStep false (qinit { initial_message := "" })
      ⟨⟨[⟨"1", "foo0"⟩], [], 0, 0, 5, ""⟩, QPhase.looping, [], 0⟩ :=
    QStep.signal _ ⟨"1", "foo0"⟩
  have h2 : QStep false ⟨⟨[⟨"1", "foo0"⟩], [], 0, 0, 5, ""⟩, QPhase.looping, [], 0⟩
      ⟨⟨[], [], 1, 1, 5, ""⟩, QPhase.awaitingEffect ⟨"1", "foo0"⟩, [], 0⟩ :=
    QStep.pop _ ⟨"1", "foo0"⟩ [] rfl rfl
  have h3 : QStep false ⟨⟨[], [], 1, 1, 5, ""⟩, QPhase.awaitingEffect ⟨"1", "foo0"⟩, [], 0⟩
      cProcessedOne :=
    QStep.effectOk _ ⟨"1", "foo0"⟩ rfl
  exact Relation.ReflTransGen.tail
    (Relation.ReflTransGen.tail (Relation.ReflTransGen.single h1) h2) h3

theorem pollGo_all_empty (queries : Nat → String) (hq : ∀ i, queries i = "") :
    ∀ (fuel i : Nat), pollGo queries i fuel = "" := by
  intro fuel
  induction fuel with
  | zero => intro i; rfl
  | succ fuel ih => intro i; simp [pollGo, hq, ih]

/-! ### Claims about the queue workflow -/

/-- C1: every request drained by the main loop whose effect invocation
succeeds ends up in the response table mapped to the uppercase transform of
its input (no later buffered request reusing the id); in particular, after
enqueueing the request with id "1" and input "foo0", one drain cycle makes
`get_response` return "FOO0" for id "1". -/
theorem drained_request_commits_uppercase
    (s : QueueState) (oks : List Bool) (i : Nat) (req : Request)
    (hreq : s.requests_buffer.get? i = some req)
    (hok : oks.getD i true = true)
    (hlast : ∀ j req', i < j → s.requests_buffer.get? j = some req' → req'.id ≠ req.id) :
    mapLookup (drainAll s oks).responses_map req.id =
      some (uppercase_activity req.input) ∧
    get_response
      (drainCycle (signalRequest (initState { initial_message := "" })
        { id := "1", input := "foo0" }) [true]).1 "1" = "FOO0" := by
  constructor
  · exact drainGo_commits s.requests_buffer.length s oks i req rfl hreq hok hlast
  · decide

/-- Witness: C1 instantiated with the single request `{id "1", input "foo0"}`
processed successfully. -/
theorem drained_request_commits_uppercase_witness :
    mapLookup (drainAll qFailW [true]).responses_map "1" = some "FOO0" := by
  refine ((drained_request_commits_uppercase qFailW [true] 0 ⟨"1", "foo0"⟩ rfl rfl ?_).1 : _)
  intro j req' hj hg
  rcases j with _ | j
  · omega
  · simp [qFailW, List.get?] at hg

/-- C2: compaction round-trips the response table exactly: the new
generation built by `continue_as_new` starts with a table equal to the one
at the compaction point, so every key/value pair is carried over unchanged. -/
theorem compaction_roundtrips_response_table (s : QueueState) :
    (compactState s).responses_map = s.responses_map ∧
    ∀ k, mapLookup (compactState s).responses_map k = mapLookup s.responses_map k :=
  ⟨rfl, fun _ => rfl⟩

/-- C3: a `continue_as_new` step (recognised by the generation counter
increasing) can only fire from a reachable configuration where at least
five requests have been counted, no update is pending and the loop is not
awaiting an effect invocation. -/
theorem compaction_only_when_quiescent (msg : String) (c c' : QConfig)
    (hr : QReach true msg c) (hs : QStep true c c')
    (hg : c'.generation = c.generation + 1) :
    5 ≤ c.qs.request_count ∧ c.qs.pending_updates = 0 ∧
      ∀ req, c.qphase ≠ QPhase.awaitingEffect req := by
  cases hs with
  | signal req => simp at hg
  | extSetResponse req_id result he => simp at hg
  | pop req rest hp hb => simp at hg
  | effectOk req hp => simp at hg
  | effectFail req hp => simp at hg
  | compactYes hp hb hc =>
    have ht := qreach_threshold hr
    unfold shouldCompact at hc
    rw [ht] at hc
    simp only [Bool.and_eq_true, decide_eq_true_eq, beq_iff_eq] at hc
    refine ⟨hc.1, hc.2, fun req => ?_⟩
    rw [hp]
    simp

/-- Witness: C3 applied to the reachable quiescent configuration with five
counted requests, which takes the compaction step. -/
theorem compaction_only_when_quiescent_witness :
    5 ≤ cCompactReady.qs.request_count ∧ cCompactReady.qs.pending_updates = 0 ∧
      ∀ req, cCompactReady.qphase ≠ QPhase.awaitingEffect req :=
  compaction_only_when_quiescent "" cCompactReady
    { cCompactReady with
        qs := compactState cCompactReady.qs
        generation := cCompactReady.generation + 1 }
    cCompactReady_reach (QStep.compactYes cCompactReady rfl rfl rfl) rfl

/-- C8: when the effect invocation for the dequeued request fails, the
exception is caught: the response table is untouched (no entry for that
request's id), the request is removed from the buffer and not re-enqueued,
the pending counter returns to its previous value, and the drain loop
simply continues with the remaining requests. -/
theorem failed_effect_logged_and_dropped (s : QueueState) (req : Request)
    (rest : List Request) (oks : List Bool)
    (hb : s.requests_buffer = req :: rest) :
    (processOne s false).responses_map = s.responses_map ∧
    get_response (processOne s false) req.id = get_response s req.id ∧
    (processOne s false).requests_buffer = rest ∧
    (processOne s false).pending_updates = s.pending_updates ∧
    drainAll s (false :: oks) = drainAll (processOne s false) oks := by
  rw [processOne_false s req rest hb]
  refine ⟨rfl, rfl, rfl, rfl, ?_⟩
  have h := drainAll_cons s req rest hb (false :: oks)
  simp only [List.headD_cons, List.tail_cons] at h
  rw [processOne_false s req rest hb] at h
  exact h

/-- Witness: C8 at the single-request state. -/
theorem failed_effect_logged_and_dropped_witness :
    (processOne qFailW false).responses_map = qFailW.responses_map ∧
    get_response (processOne qFailW false) "1" = get_response qFailW "1" ∧
    (processOne qFailW false).requests_buffer = [] ∧
    (processOne qFailW false).pending_updates = qFailW.pending_updates ∧
    drainAll qFailW [false] = drainAll (processOne qFailW false) [] :=
  failed_effect_logged_and_dropped qFailW ⟨"1", "foo0"⟩ [] [] rfl

/-- C9 (amended): in every configuration reachable through the `request`
signal, the drain loop and pure `get_response` reads — with `set_response`
executed only by the drain loop itself — every id in the response table is
the committed result of a fully processed request. -/
theorem queue_table_entries_fully_processed (msg : String) (c : QConfig)
    (hr : QReach false msg c) : QTableInv c := by
  induction hr with
  | refl =>
    intro k v hk
    exact absurd hk (by simp [qinit, initState, mapLookup])
  | tail _ hstep ih => exact qstep_tableInv hstep ih

/-- Witness: the amended C9 invariant instantiated at the reachable
configuration in which request `{id "1", input "foo0"}` was processed. -/
theorem queue_table_entries_fully_processed_witness :
    ∃ req, req ∈ cProcessedOne.drainedOk ∧ req.id = "1" ∧
      uppercase_activity req.input = "FOO0" :=
  queue_table_entries_fully_processed "" cProcessedOne cProcessedOne_reach "1" "FOO0" rfl

/-- C9 counterexample: `set_response` is a public update handler, so an
external client can write an arbitrary table entry; the configuration
reached from a fresh start by one external `set_response("x", "y")` call
has a table entry although no request was ever processed. -/
theorem queue_table_entry_without_processing :
    QReach true "" cExtWritten ∧ ¬ QTableInv cExtWritten := by
  constructor
  · exact Relation.ReflTransGen.single
      (QStep.extSetResponse (qinit { initial_message := "" }) "x" "y" rfl)
  · intro hinv
    obtain ⟨req, hmem, -, -⟩ := hinv "x" "y" rfl
    simp [cExtWritten] at hmem

/-- C10: a stored empty-string response (for example the uppercase of an
empty input) is indistinguishable at the query interface from "no response
yet": `get_response` returns the sentinel `""` in both cases, and a
requester polling for a truthy response observes only the sentinel and
gives up with `""`. -/
theorem empty_response_indistinguishable (s : QueueState) (req_id : String)
    (queries : Nat → String)
    (h1 : mapLookup s.responses_map req_id = none ∨
      mapLookup s.responses_map req_id = some "")
    (h2 : ∀ i, queries i = get_response s req_id) :
    get_response s req_id = "" ∧ uppercase_activity "" = "" ∧
      request_uppercase_poll queries = "" := by
  have hempty : get_response s req_id = "" := by
    rcases h1 with h | h <;> simp [get_response, h]
  refine ⟨hempty, rfl, ?_⟩
  unfold request_uppercase_poll
  exact pollGo_all_empty queries (fun i => by rw [h2 i, hempty]) 20 0

/-- Witness: C10 at a state storing the empty-string response for id "1",
polled by a requester that always sees that stored value. -/
theorem empty_response_indistinguishable_witness :
    get_response qEmptyW "1" = "" ∧ uppercase_activity "" = "" ∧
      request_uppercase_poll (fun _ => "") = "" :=
  empty_response_indistinguishable qEmptyW "1" (fun _ => "")
    (Or.inr rfl) (fun _ => rfl)

/-! ### Claims about the greeting workflow -/

namespace Introduction

/-- C5: `set_language` is guarded by the pure validator
`language not in self.greetings`: an unsupported variant is rejected with
the state untouched (nothing inserted, current language unchanged), while a
supported variant is swapped in with the previous one returned. -/
theorem set_language_validated_swap (s : GreetingState) (lu ls : Language)
    (hu : mapLookup s.greetings lu = none)
    (hs : (mapLookup s.greetings ls).isSome = true) :
    validate_language s lu = false ∧
    handle_set_language s lu = (s, Except.error "language is not supported") ∧
    validate_language s ls = true ∧
    handle_set_language s ls = ({ s with language := ls }, Except.ok s.language) := by
  have h1 : validate_language s lu = false := by
    simp [validate_language, hu]
  refine ⟨h1, ?_, hs, ?_⟩
  · simp [handle_set_language, h1]
  · simp [handle_set_language, validate_language, hs, set_language]

/-- Witness: C5 at the initial state, with `french` unsupported and
`chinese` supported. -/
theorem set_language_validated_swap_witness :
    validate_language greetingInit Language.french = false ∧
    handle_set_language greetingInit Language.french =
      (greetingInit, Except.error "language is not supported") ∧
    validate_language greetingInit Language.chinese = true ∧
    handle_set_language greetingInit Language.chinese =
      ({ greetingInit with language := Language.chinese }, Except.ok greetingInit.language) :=
  set_language_validated_swap greetingInit Language.french Language.chinese rfl rfl

/-- With an empty/absent gateway result the handler never reaches a
successful `afterGateway` phase, and the greetings mapping is never
touched. -/
theorem hrun_none_no_insert (s : GreetingState) (language : Language) :
    ∀ n : Nat, (hrun s language none n).gs.greetings = s.greetings ∧
      ∀ g, (hrun s language none n).phase ≠ HPhase.afterGateway (some g) := by
  intro n
  induction n with
  | zero => exact ⟨rfl, by simp [hrun]⟩
  | succ n ih =>
    obtain ⟨hg, hp⟩ := ih
    have hx : hrun s language none (n + 1) =
        hstep language none (hrun s language none n) := rfl
    cases hph : (hrun s language none n).phase with
    | entry =>
      rw [hx]
      simp only [hstep, hph]
      split <;> simp [hg]
    | beforeGateway =>
      rw [hx]
      simp [hstep, hph, hg]
    | afterGateway res =>
      cases res with
      | none => rw [hx]; simp [hstep, hph, hg]
      | some g => exact absurd hph (hp g)
    | inserted =>
      rw [hx]
      simp [hstep, hph, hg]
    | beforeSwap =>
      rw [hx]
      simp [hstep, hph, hg]
    | returned prev =>
      rw [hx]
      simp [hstep, hph, hg, hp]
    | errored m =>
      rw [hx]
      simp [hstep, hph, hg, hp]

/-- C6: in `set_language_using_activity` for a not-yet-supported language,
an empty/absent gateway result makes the update fail with an
`ApplicationError` while the lock has been released and neither the
greetings mapping nor the current language has been mutated; the mapping is
never touched in a run whose gateway result is empty. -/
theorem gateway_empty_fails_without_mutation (s : GreetingState) (language : Language)
    (hu : mapLookup s.greetings language = none)
    (hl : s.lockHeld = false) :
    (∀ n : Nat, hrun s language none (3 + n) =
      { gs := s,
        phase := HPhase.errored "Greeting service does not support this language" }) ∧
    ∀ n : Nat, (hrun s language none n).gs.greetings = s.greetings := by
  have e1 : hrun s language none 1 =
      { gs := { s with lockHeld := true }, phase := HPhase.beforeGateway } := by
    show hstep language none { gs := s, phase := HPhase.entry } = _
    simp [hstep, hu]
  have e2 : hrun s language none 2 =
      { gs := { s with lockHeld := true }, phase := HPhase.afterGateway none } := by
    show hstep language none (hrun s language none 1) = _
    rw [e1]
    rfl
  have hse : ({ s with lockHeld := false } : GreetingState) = s := by
    cases s
    simp_all
  have e3 : hrun s language none 3 =
      { gs := s,
        phase := HPhase.errored "Greeting service does not support this language" } := by
    show hstep language none (hrun s language none 2) = _
    rw [e2]
    simp [hstep, hse]
  refine ⟨?_, fun n => (hrun_none_no_insert s language n).1⟩
  intro n
  induction n with
  | zero => exact e3
  | succ n ih =>
    show hstep language none (hrun s language none (3 + n)) = _
    rw [ih]
    rfl

/-- Witness: C6 at the initial state with the unsupported language
`french`. -/
theorem gateway_empty_fails_without_mutation_witness :
    hrun greetingInit Language.french none 3 =
      { gs := greetingInit,
        phase := HPhase.errored "Greeting service does not support this language" } ∧
    (hrun greetingInit Language.french none 3).gs.greetings = greetingInit.greetings := by
  have h := gateway_empty_fails_without_mutation greetingInit Language.french rfl rfl
  exact ⟨h.1 0, h.2 3⟩

/-- C7 counterexample: in a run of `set_language_using_activity` for the
unsupported `french` with a successful gateway result, the handler reaches
the swap point with the lock already released, and the swap of the current
language is then performed without the guard. -/
theorem swap_after_lock_release_counterexample :
    (hrun greetingInit Language.french (some "Bonjour, le monde") 4).phase =
      HPhase.beforeSwap ∧
    (hrun greetingInit Language.french (some "Bonjour, le monde") 4).gs.lockHeld = false ∧
    (hrun greetingInit Language.french (some "Bonjour, le monde") 5).phase =
      HPhase.returned Language.english ∧
    (hrun greetingInit Language.french (some "Bonjour, le monde") 5).gs.language =
      Language.french := by
  decide

/-- C7 (amended): the guard gates the critical section consisting of the
gateway invocation and the mapping insertion only; the swap of the current
language is performed after the guard has been released (and the fast path
for an already-supported language never takes the guard). -/
theorem lock_scope_gateway_and_insert (s : GreetingState) (language : Language)
    (gw : Option String) (hl : s.lockHeld = false) :
    ∀ n : Nat,
      ((hrun s language gw n).phase = HPhase.beforeGateway →
        (hrun s language gw n).gs.lockHeld = true) ∧
      (∀ res, (hrun s language gw n).phase = HPhase.afterGateway res →
        (hrun s language gw n).gs.lockHeld = true) ∧
      ((hrun s language gw n).phase = HPhase.inserted →
        (hrun s language gw n).gs.lockHeld = true) ∧
      ((hrun s language gw n).phase = HPhase.beforeSwap →
        (hrun s language gw n).gs.lockHeld = false) ∧
      ((hrun s language gw n).phase = HPhase.entry →
        (hrun s language gw n).gs.lockHeld = false) := by
  intro n
  induction n with
  | zero => simp [hrun, hl]
  | succ n ih =>
    obtain ⟨i1, i2, i3, i4, i5⟩ := ih
    have hx : hrun s language gw (n + 1) = hstep language gw (hrun s language gw n) := rfl
    cases hph : (hrun s language gw n).phase with
    | entry =>
      rw [hx]
      simp only [hstep, hph]
      split
      · simp [i5 hph]
      · simp
    | beforeGateway =>
      rw [hx]
      simp [hstep, hph, i1 hph]
    | afterGateway res =>
      rw [hx]
      simp only [hstep, hph]
      cases res with
      | none => simp
      | some g => simp [i2 (some g) hph]
    | inserted =>
      rw [hx]
      simp [hstep, hph]
    | beforeSwap =>
      rw [hx]
      simp [hstep, hph]
    | returned prev =>
      rw [hx]
      simp [hstep, hph]
    | errored m =>
      rw [hx]
      simp [hstep, hph]

/-- Witness: the amended C7 in the successful-gateway run for `french`:
lock held while the gateway result is received and while the insertion has
just happened, released at the swap point. -/
theorem lock_scope_gateway_and_insert_witness :
    (hrun greetingInit Language.french (some "Bonjour, le monde") 2).gs.lockHeld = true ∧
    (hrun greetingInit Language.french (some "Bonjour, le monde") 3).gs.lockHeld = true ∧
    (hrun greetingInit Language.french (some "Bonjour, le monde") 4).gs.lockHeld = false := by
  have h2 := lock_scope_gateway_and_insert greetingInit Language.french
    (some "Bonjour, le monde") rfl 2
  have h3 := lock_scope_gateway_and_insert greetingInit Language.french
    (some "Bonjour, le monde") rfl 3
  have h4 := lock_scope_gateway_and_insert greetingInit Language.french
    (some "Bonjour, le monde") rfl 4
  exact ⟨h2.2.1 (some "Bonjour, le monde") rfl, h3.2.2.1 rfl, h4.2.2.2.1 rfl⟩

/-- C4: a step of the greeting workflow can produce the `run` result only
from a configuration where `approved_for_release` is set and every handler
(in particular every `set_language_using_activity` invocation) has
finished, and the produced result is the greetings-mapping value of the
current language of that configuration. -/
theorem run_result_only_after_approval_and_quiescence (c c' : WConfig)
    (hs : WStep c c') (h0 : c.result = none) (h1 : c'.result ≠ none) :
    c.gs.approved_for_release = true ∧ all_handlers_finished c.inflight = true ∧
      c'.result = mapLookup c.gs.greetings c.gs.language := by
  cases hs with
  | approveSig name =>
    simp only at h1
    exact absurd h0 h1
  | setLangUpd language hv =>
    simp only at h1
    exact absurd h0 h1
  | spawn language =>
    simp only at h1
    exact absurd h0 h1
  | handlerStep i gw language ph hi hcan =>
    have hres : (applyHandler c i gw).result = c.result := by
      unfold applyHandler
      rw [hi]
    exact absurd (hres.trans h0) h1
  | finish r ha hf hn hv =>
    exact ⟨ha, hf, by simp [hv]⟩

/-- Witness: C4 via the `finish` step from the approved, quiescent initial
configuration. -/
theorem run_result_only_after_approval_and_quiescence_witness :
    (approve greetingInit "alice").approved_for_release = true ∧
    all_handlers_finished ([] : List (Language × HPhase)) = true ∧
    (⟨approve greetingInit "alice", [], some "Hello, world"⟩ : WConfig).result =
      mapLookup (approve greetingInit "alice").greetings
        (approve greetingInit "alice").language :=
  run_result_only_after_approval_and_quiescence
    ⟨approve greetingInit "alice", [], none⟩
    ⟨approve greetingInit "alice", [], some "Hello, world"⟩
    (WStep.finish _ "Hello, world" rfl rfl rfl rfl) rfl (by simp)

end Introduction
